import Mathlib

/-!
Verification of the security subsystem of a Solana trading chat-bot server
(`src/utils/security.py`): rate limiting, CAPTCHA human verification,
private-key encryption/decryption, input validation and session lifecycle
management.

Modelling conventions:
* Python `float` timestamps (`time.time()`, `datetime.utcnow()`) are modelled
  as exact rationals `ℚ`; the code only adds constants and compares, so the
  arithmetic is exact.
* Python `dict`s are modelled as association lists with first-match lookup;
  insertion replaces any previous binding of the same key.
* `async def` methods do no real concurrency (no awaits between state
  mutations inside one call), so they are modelled as pure state-passing
  functions; `time.time()` / `datetime.utcnow()` become an explicit `now`
  argument.
* Randomness (`random.choice`, `random.randint`, `secrets.token_bytes`,
  `secrets.token_urlsafe`) is modelled by explicit parameters, or, for
  session tokens, by a fresh-name counter supply (a cryptographically
  random 32-byte token never collides with a live one).
-/

/-- Timestamps: exact model of the float seconds used by the code. -/
abbrev Tm : Type := ℚ

/-- First-match lookup in an association list (Python `dict[k]` / `in`). -/
def alookup {α β : Type} [DecidableEq α] : List (α × β) → α → Option β
  | [], _ => none
  | (k, v) :: rest, a => if k = a then some v else alookup rest a

/-- Insert-or-replace a binding (Python `dict[k] = v`). -/
def ainsert {α β : Type} [DecidableEq α] (l : List (α × β)) (k : α) (v : β) :
    List (α × β) :=
  (k, v) :: l.filter (fun p => decide (p.1 ≠ k))

/-- Delete a binding (Python `del dict[k]`). -/
def aerase {α β : Type} [DecidableEq α] (l : List (α × β)) (k : α) :
    List (α × β) :=
  l.filter (fun p => decide (p.1 ≠ k))

theorem alookup_ainsert_self {α β : Type} [DecidableEq α]
    (l : List (α × β)) (k : α) (v : β) : alookup (ainsert l k v) k = some v := by
  simp [ainsert, alookup]

theorem alookup_filter_ne_key {α β : Type} [DecidableEq α]
    (l : List (α × β)) (k k' : α) (h : k ≠ k') :
    alookup (l.filter (fun p => decide (p.1 ≠ k))) k' = alookup l k' := by
  induction l with
  | nil => rfl
  | cons p rest ih =>
    by_cases hp : p.1 = k
    · have hc : decide (p.1 ≠ k) = false := by simp [hp]
      have hne : p.1 ≠ k' := fun hh => h (hp ▸ hh)
      rw [List.filter_cons, hc, if_neg Bool.false_ne_true, ih]
      show _ = alookup (p :: rest) k'
      rw [alookup, if_neg hne]
    · have hc : decide (p.1 ≠ k) = true := decide_eq_true hp
      rw [List.filter_cons, hc, if_pos rfl]
      show alookup (p :: _) k' = alookup (p :: rest) k'
      rw [alookup, alookup]
      by_cases hk' : p.1 = k'
      · rw [if_pos hk', if_pos hk']
      · rw [if_neg hk', if_neg hk', ih]

theorem alookup_filter_self {α β : Type} [DecidableEq α]
    (l : List (α × β)) (k : α) :
    alookup (l.filter (fun p => decide (p.1 ≠ k))) k = none := by
  induction l with
  | nil => rfl
  | cons p rest ih =>
    by_cases hp : p.1 = k
    · have hc : decide (p.1 ≠ k) = false := by simp [hp]
      rw [List.filter_cons, hc, if_neg Bool.false_ne_true, ih]
    · have hc : decide (p.1 ≠ k) = true := decide_eq_true hp
      rw [List.filter_cons, hc, if_pos rfl]
      show alookup (p :: _) k = none
      rw [alookup, if_neg hp, ih]

theorem alookup_ainsert_ne {α β : Type} [DecidableEq α]
    (l : List (α × β)) (k k' : α) (v : β) (h : k ≠ k') :
    alookup (ainsert l k v) k' = alookup l k' := by
  show alookup ((k, v) :: _) k' = _
  rw [alookup, if_neg h]
  exact alookup_filter_ne_key l k k' h

theorem alookup_aerase_self {α β : Type} [DecidableEq α]
    (l : List (α × β)) (k : α) : alookup (aerase l k) k = none :=
  alookup_filter_self l k

theorem alookup_aerase_ne {α β : Type} [DecidableEq α]
    (l : List (α × β)) (k k' : α) (h : k ≠ k') :
    alookup (aerase l k) k' = alookup l k' :=
  alookup_filter_ne_key l k k' h

/-! ## Crypto Vault (`CryptoUtils`)

`encrypt_private_key` derives a Fernet key with
`PBKDF2HMAC(SHA256, 100000 iterations)` from the password string
`f"{self.master_key}:{user_id}"` and a fresh 32-byte salt, then encrypts
with `Fernet` (authenticated symmetric encryption).  The KDF is modelled
symbolically as the injective function `(password, salt) ↦ ⟨password, salt⟩`
(PBKDF2 is deterministic and collision-free for the purposes of the spec),
and Fernet as an ideal authenticated cipher: decryption under a key returns
the plaintext exactly when the key matches the encryption key, and fails
(raises `InvalidToken`, modelled as `none`) otherwise.  The base64
encode/decode round-trips on the stored fields are folded away (the stored
fields hold the decoded values). -/

/-- Decimal string of a nonnegative integer, little-endian digit list;
models Python `str(user_id)` inside the f-string. -/
def pyNatDigitsLE : Nat → List Nat
  | 0 => []
  | n + 1 => ((n + 1) % 10) :: pyNatDigitsLE ((n + 1) / 10)
decreasing_by exact Nat.div_lt_self (Nat.succ_pos n) (by decide)

/-- Value of a little-endian digit list. -/
def digitsValLE : List Nat → Nat
  | [] => 0
  | d :: ds => d + 10 * digitsValLE ds

theorem digitsValLE_pyNatDigitsLE (n : Nat) :
    digitsValLE (pyNatDigitsLE n) = n := by
  induction n using Nat.strong_induction_on with
  | _ n ih =>
    match n with
    | 0 => simp [pyNatDigitsLE, digitsValLE]
    | m + 1 =>
      rw [pyNatDigitsLE, digitsValLE,
        ih ((m + 1) / 10) (Nat.div_lt_self (Nat.succ_pos m) (by decide))]
      exact Nat.mod_add_div (m + 1) 10

/-- Python `str(n)` for a nonnegative int: decimal digits, `"0"` for zero. -/
def pyStr (n : Nat) : String :=
  if n = 0 then "0" else ⟨((pyNatDigitsLE n).map Nat.digitChar).reverse⟩

/-- Digit value of a character produced by `Nat.digitChar`. -/
def charDigitVal (c : Char) : Nat := c.toNat - 48

/-- Computable left inverse of `pyStr`. -/
def pyStrVal (s : String) : Nat :=
  digitsValLE ((s.data.map charDigitVal).reverse)

theorem mem_pyNatDigitsLE_lt (n : Nat) : ∀ d ∈ pyNatDigitsLE n, d < 10 := by
  induction n using Nat.strong_induction_on with
  | _ n ih =>
    match n with
    | 0 => intro d hd; simp [pyNatDigitsLE] at hd
    | m + 1 =>
      intro d hd
      rw [pyNatDigitsLE] at hd
      rcases List.mem_cons.mp hd with h | h
      · exact h ▸ Nat.mod_lt _ (by decide)
      · exact ih ((m + 1) / 10) (Nat.div_lt_self (Nat.succ_pos m) (by decide)) d h

theorem charDigitVal_digitChar : ∀ d < 10, charDigitVal (Nat.digitChar d) = d := by
  decide

theorem pyStrVal_pyStr (n : Nat) : pyStrVal (pyStr n) = n := by
  by_cases h : n = 0
  · subst h; rfl
  · unfold pyStr
    rw [if_neg h]
    unfold pyStrVal
    show digitsValLE (((((pyNatDigitsLE n).map Nat.digitChar).reverse).map
      charDigitVal).reverse) = n
    rw [← List.map_reverse, List.reverse_reverse, List.map_map]
    have hmap : (pyNatDigitsLE n).map (charDigitVal ∘ Nat.digitChar) =
        (pyNatDigitsLE n).map id :=
      List.map_congr_left fun d hd =>
        charDigitVal_digitChar d (mem_pyNatDigitsLE_lt n d hd)
    rw [hmap, List.map_id, digitsValLE_pyNatDigitsLE]

theorem pyStr_injective : Function.Injective pyStr := by
  intro a b h
  have := congrArg pyStrVal h
  rwa [pyStrVal_pyStr, pyStrVal_pyStr] at this

/-- A symbolic PBKDF2-derived key: determined exactly by password and salt. -/
structure DerivedKey where
  password : String
  salt : Nat
deriving DecidableEq

/-- Model of `CryptoUtils._derive_key` (PBKDF2HMAC-SHA256, 100000
iterations, 32-byte output, urlsafe-base64 encoded): symbolically, the pair
of its inputs. -/
def derive_key (password : String) (salt : Nat) : DerivedKey :=
  ⟨password, salt⟩

/-- A symbolic Fernet token: records the key and plaintext it was built from. -/
structure FernetCiphertext where
  key : DerivedKey
  plaintext : String
deriving DecidableEq

/-- Ideal-cipher model of `Fernet(key).encrypt(pt)`. -/
def fernetEncrypt (k : DerivedKey) (pt : String) : FernetCiphertext :=
  ⟨k, pt⟩

/-- Ideal-cipher model of `Fernet(key).decrypt(ct)`: authenticated
decryption succeeds exactly under the original key, otherwise raises
(`none`). -/
def fernetDecrypt (k : DerivedKey) (ct : FernetCiphertext) : Option String :=
  if ct.key = k then some ct.plaintext else none

/-- The dict returned by `encrypt_private_key`:
`{'encrypted_data': ..., 'salt': ..., 'algorithm': 'fernet-pbkdf2'}`. -/
structure EncryptedSecret where
  encrypted_data : FernetCiphertext
  salt : Nat
  algorithm : String

/-- Model of `CryptoUtils.encrypt_private_key`: the fresh random salt
(`secrets.token_bytes(32)`) is an explicit argument. -/
def encrypt_private_key (master_key private_key : String) (user_id : Nat)
    (salt : Nat) : EncryptedSecret :=
  let derived := derive_key (master_key ++ ":" ++ pyStr user_id) salt
  ⟨fernetEncrypt derived private_key, salt, "fernet-pbkdf2"⟩

/-- Model of `CryptoUtils.decrypt_private_key`: re-derives the key from the
stored salt and the caller's `user_id`; `none` models the re-raised
decryption exception. -/
def decrypt_private_key (master_key : String) (enc : EncryptedSecret)
    (user_id : Nat) : Option String :=
  let derived := derive_key (master_key ++ ":" ++ pyStr user_id) enc.salt
  fernetDecrypt derived enc.encrypted_data

/-- C1: For every plaintext string p and every principal A, decrypting the
result of encrypting p for A, with the same principal A and the same master
secret, returns exactly p — for arbitrary plaintexts (including the empty
string and arbitrarily long ones), because the stored salt is reused so the
same key is re-derived. -/
theorem c1_encrypt_decrypt_roundtrip (master_key private_key : String)
    (user_id salt : Nat) :
    decrypt_private_key master_key
      (encrypt_private_key master_key private_key user_id salt) user_id =
      some private_key := by
  simp [decrypt_private_key, encrypt_private_key, fernetDecrypt, fernetEncrypt]

/-- C2: For every plaintext p and every pair of distinct principals A ≠ B,
decrypting `encrypt(p, A)` with principal B fails with a crypto error
(`none`): the derived key differs, so authenticated decryption rejects; it
never returns garbage plaintext. -/
theorem c2_decrypt_wrong_principal (master_key private_key : String)
    (a b salt : Nat) (hab : a ≠ b) :
    decrypt_private_key master_key
      (encrypt_private_key master_key private_key a salt) b = none := by
  unfold decrypt_private_key encrypt_private_key fernetDecrypt fernetEncrypt
    derive_key
  rw [if_neg]
  intro h
  apply hab
  apply pyStr_injective
  have hpw : master_key ++ ":" ++ pyStr a = master_key ++ ":" ++ pyStr b :=
    congrArg DerivedKey.password h
  have hdata := congrArg String.data hpw
  simp only [String.data_append] at hdata
  exact String.ext (List.append_cancel_left hdata)

/-- C2 witness: principals 1 and 2 with a concrete key and plaintext. -/
theorem c2_decrypt_wrong_principal_witness :
    decrypt_private_key "master"
      (encrypt_private_key "master" "secret-key-bytes" 1 7) 2 = none :=
  c2_decrypt_wrong_principal "master" "secret-key-bytes" 1 2 7 (by decide)

/-! ## Rate Limiter (`RateLimiter`)

Constants from `SecurityConfig`: `MAX_REQUESTS_PER_MINUTE = 30`,
`MAX_REQUESTS_PER_HOUR = 200`, `MAX_LOGIN_ATTEMPTS = 5`,
`LOGIN_LOCKOUT_DURATION = 300`. -/

/-- The per-endpoint dict `{'minute': [...], 'hour': [...]}`. -/
structure EPWindows where
  minute : List Tm
  hour : List Tm
deriving DecidableEq

/-- The three dicts held by a `RateLimiter` instance. -/
structure RLState where
  requests : List (Nat × List (String × EPWindows))
  failed_attempts : List (Nat × List Tm)
  locked_users : List (Nat × Tm)
deriving DecidableEq

/-- Fresh `RateLimiter()`: all dicts empty. -/
def initRL : RLState := ⟨[], [], []⟩

/-- Model of `RateLimiter._is_locked_out`: returns the boolean and the
state (the expired lockout record is deleted as a side effect). -/
def is_locked_out (s : RLState) (user_id : Nat) (current_time : Tm) :
    Bool × RLState :=
  match alookup s.locked_users user_id with
  | some unlock_time =>
    if current_time < unlock_time then (true, s)
    else (false, { s with locked_users := aerase s.locked_users user_id })
  | none => (false, s)

/-- Model of `RateLimiter._record_failed_attempt`: prune the failure ledger
to the trailing 5-minute horizon, append `now`, and lock the user for 300 s
once 5 failures accumulate. -/
def record_failed_attempt (s : RLState) (user_id : Nat) (current_time : Tm) :
    RLState :=
  let prev := (alookup s.failed_attempts user_id).getD []
  let cleaned := prev.filter (fun t => decide (current_time - t < 300))
  let updated := cleaned ++ [current_time]
  let s1 := { s with failed_attempts := ainsert s.failed_attempts user_id updated }
  if 5 ≤ updated.length then
    { s1 with locked_users := ainsert s1.locked_users user_id (current_time + 300) }
  else s1

/-- Model of `RateLimiter.allow_request`: lockout gate, then prune both
windows, then check the minute and hour limits (recording a failure on
either rejection), then record the request. -/
def allow_request (s : RLState) (user_id : Nat) (endpoint : String)
    (current_time : Tm) : Bool × RLState :=
  match is_locked_out s user_id current_time with
  | (true, s') => (false, s')
  | (false, s') =>
    let user_reqs := (alookup s'.requests user_id).getD []
    let epw := (alookup user_reqs endpoint).getD ⟨[], []⟩
    let minute := epw.minute.filter (fun t => decide (current_time - t < 60))
    let hour := epw.hour.filter (fun t => decide (current_time - t < 3600))
    let pruned := ainsert s'.requests user_id (ainsert user_reqs endpoint ⟨minute, hour⟩)
    let recorded := ainsert s'.requests user_id
      (ainsert user_reqs endpoint ⟨minute ++ [current_time], hour ++ [current_time]⟩)
    if 30 ≤ minute.length then
      (false, record_failed_attempt { s' with requests := pruned } user_id current_time)
    else if 200 ≤ hour.length then
      (false, record_failed_attempt { s' with requests := pruned } user_id current_time)
    else
      (true, { s' with requests := recorded })

/-- Model of `RateLimiter.reset_user_limits`. -/
def reset_user_limits (s : RLState) (user_id : Nat) : RLState :=
  ⟨aerase s.requests user_id, aerase s.failed_attempts user_id,
    aerase s.locked_users user_id⟩

/-- Run `allow_request` for one user and endpoint over a list of request
times, collecting the results. -/
def runAllow (s : RLState) (user_id : Nat) (endpoint : String) :
    List Tm → RLState × List Bool
  | [] => (s, [])
  | t :: ts =>
    let r := allow_request s user_id endpoint t
    let rest := runAllow r.2 user_id endpoint ts
    (rest.1, r.1 :: rest.2)

/-- C4: five failures within the trailing 5-minute horizon create a lockout
with `unlock_time = now + 300`; while `now < unlock_time` every
`allow_request` call for that principal returns false with the state
untouched (so window counts are irrelevant); and at or after `unlock_time`
the lockout record is removed and the request is evaluated exactly as if no
lockout record existed. -/
theorem c4_lockout (s : RLState) (u : Nat) (now : Tm) :
    ((((alookup s.failed_attempts u).getD []).filter
        (fun t => decide (now - t < 300))).length ≥ 4 →
      alookup (record_failed_attempt s u now).locked_users u = some (now + 300)) ∧
    (∀ ep unlock, alookup s.locked_users u = some unlock → now < unlock →
      allow_request s u ep now = (false, s)) ∧
    (∀ ep unlock, alookup s.locked_users u = some unlock → unlock ≤ now →
      is_locked_out s u now =
        (false, { s with locked_users := aerase s.locked_users u }) ∧
      allow_request s u ep now =
        allow_request { s with locked_users := aerase s.locked_users u } u ep now) := by
  refine ⟨?_, ?_, ?_⟩
  · intro hlen
    unfold record_failed_attempt
    have h5 : 5 ≤ ((((alookup s.failed_attempts u).getD []).filter
        (fun t => decide (now - t < 300))) ++ [now]).length := by
      rw [List.length_append]
      simpa using hlen
    rw [if_pos h5]
    exact alookup_ainsert_self _ _ _
  · intro ep unlock hlock hnow
    unfold allow_request is_locked_out
    rw [hlock]
    dsimp only
    rw [if_pos hnow]
  · intro ep unlock hlock hnow
    have hlo : is_locked_out s u now =
        (false, { s with locked_users := aerase s.locked_users u }) := by
      unfold is_locked_out
      rw [hlock]
      dsimp only
      rw [if_neg (not_lt.mpr hnow)]
    refine ⟨hlo, ?_⟩
    have hlo2 : is_locked_out { s with locked_users := aerase s.locked_users u }
        u now = (false, { s with locked_users := aerase s.locked_users u }) := by
      unfold is_locked_out
      simp only [alookup_aerase_self]
    unfold allow_request
    rw [hlo, hlo2]

/-- C4 witness: a user with four recent failures gets locked until 304, a
locked user is rejected outright, and at expiry the record is dropped. -/
theorem c4_lockout_witness :
    alookup (record_failed_attempt ⟨[], [(1, [0, 1, 2, 3])], []⟩ 1 4).locked_users 1 =
      some (4 + 300) ∧
    allow_request ⟨[], [], [(1, 20)]⟩ 1 "default" 10 =
      (false, ⟨[], [], [(1, 20)]⟩) ∧
    is_locked_out ⟨[], [], [(1, 20)]⟩ 1 25 = (false, ⟨[], [], []⟩) := by
  refine ⟨(c4_lockout ⟨[], [(1, [0, 1, 2, 3])], []⟩ 1 4).1
      (by norm_num [alookup, List.filter]),
    (c4_lockout ⟨[], [], [(1, 20)]⟩ 1 10).2.1 "default" 20 (by rfl) (by norm_num),
    ?_⟩
  have h := ((c4_lockout ⟨[], [], [(1, 20)]⟩ 1 25).2.2 "default" 20
    (by rfl) (by norm_num)).1
  simpa [aerase, List.filter] using h

/-- The rate-limiter state reached by a single user hitting a single
endpoint: both windows hold exactly the recorded times, no failures, no
lockouts. -/
def mkRL (u : Nat) (ep : String) (acc : List Tm) : RLState :=
  ⟨[(u, [(ep, ⟨acc, acc⟩)])], [], []⟩

theorem allow_request_mk_step (u : Nat) (ep : String) (acc : List Tm)
    (t b : Tm) (hacc : ∀ x ∈ acc, b - x < 60 ∧ x ≤ b)
    (ht : b - t < 60 ∧ t ≤ b) (hlen : acc.length < 30) :
    allow_request (mkRL u ep acc) u ep t = (true, mkRL u ep (acc ++ [t])) := by
  have hwin : ∀ x ∈ acc, t - x < 60 := by
    intro x hx
    have h1 := (hacc x hx).1
    have h2 := ht.2
    linarith
  have hmin : acc.filter (fun x => decide (t - x < 60)) = acc :=
    List.filter_eq_self.mpr fun x hx => decide_eq_true (hwin x hx)
  have hhour : acc.filter (fun x => decide (t - x < 3600)) = acc :=
    List.filter_eq_self.mpr fun x hx => decide_eq_true (by linarith [hwin x hx])
  unfold allow_request is_locked_out mkRL
  simp only [alookup, eq_self_iff_true, if_true, Option.getD_some]
  rw [hmin, hhour]
  rw [if_neg (by omega), if_neg (by omega)]
  simp [ainsert, List.filter]

theorem runAllow_mk (u : Nat) (ep : String) (ts acc : List Tm) (b : Tm)
    (hacc : ∀ x ∈ acc, b - x < 60 ∧ x ≤ b)
    (hts : ∀ x ∈ ts, b - x < 60 ∧ x ≤ b)
    (hlen : acc.length + ts.length ≤ 30) :
    runAllow (mkRL u ep acc) u ep ts =
      (mkRL u ep (acc ++ ts), List.replicate ts.length true) := by
  induction ts generalizing acc with
  | nil => simp [runAllow]
  | cons t ts ih =>
    have hstep := allow_request_mk_step u ep acc t b hacc
      (hts t (List.mem_cons_self t ts)) (by simp at hlen; omega)
    have hrest := ih (acc ++ [t])
      (by intro x hx
          rcases List.mem_append.mp hx with h | h
          · exact hacc x h
          · rcases List.mem_singleton.mp h with rfl
            exact hts x (List.mem_cons_self x ts))
      (fun x hx => hts x (List.mem_cons_of_mem t hx))
      (by simp at hlen ⊢; omega)
    show (let r := allow_request (mkRL u ep acc) u ep t;
      let rest := runAllow r.2 u ep ts; (rest.1, r.1 :: rest.2)) = _
    rw [hstep]
    dsimp only
    rw [hrest]
    simp [List.append_assoc, List.replicate_succ]

theorem allow_request_init (u : Nat) (ep : String) (t : Tm) :
    allow_request initRL u ep t = (true, mkRL u ep [t]) := by
  unfold allow_request is_locked_out initRL mkRL
  simp [alookup, ainsert, List.filter]

theorem allow_request_mk_reject (u : Nat) (ep : String) (acc : List Tm)
    (t : Tm)
    (hmin : 30 ≤ (acc.filter (fun x => decide (t - x < 60))).length) :
    allow_request (mkRL u ep acc) u ep t =
      (false, ⟨[(u, [(ep, ⟨acc.filter (fun x => decide (t - x < 60)),
          acc.filter (fun x => decide (t - x < 3600))⟩)])], [(u, [t])], []⟩) := by
  unfold allow_request is_locked_out mkRL record_failed_attempt
  simp only [alookup, eq_self_iff_true, if_true, Option.getD_some]
  rw [if_pos hmin]
  simp [ainsert, alookup, List.filter]

theorem allow_request_small_windows (u : Nat) (ep : String) (m h : List Tm)
    (fa : List (Nat × List Tm)) (t : Tm)
    (hm : (m.filter (fun x => decide (t - x < 60))).length < 30)
    (hh : (h.filter (fun x => decide (t - x < 3600))).length < 200) :
    (allow_request ⟨[(u, [(ep, ⟨m, h⟩)])], fa, []⟩ u ep t).1 = true := by
  unfold allow_request is_locked_out
  simp only [alookup, eq_self_iff_true, if_true, Option.getD_some]
  rw [if_neg (not_le.mpr hm), if_neg (not_le.mpr hh)]

/-- C5: for every non-locked-out principal and endpoint starting fresh,
30 requests all falling inside a common rolling minute are all allowed;
the 31st request inside that same minute is rejected and recorded as a
failure; and a later request made once more than 60 seconds have passed
since every earlier request is allowed again, because the stale minute
window is pruned before counting. -/
theorem c5_minute_window_limit (u : Nat) (ep : String) (ts : List Tm)
    (t31 t32 : Tm) (hlen : ts.length = 30)
    (hwin : ∀ x ∈ ts, t31 - x < 60 ∧ x ≤ t31)
    (hgap : ∀ x ∈ ts, 60 ≤ t32 - x) :
    (runAllow initRL u ep ts).2 = List.replicate 30 true ∧
    (allow_request (runAllow initRL u ep ts).1 u ep t31).1 = false ∧
    alookup (allow_request (runAllow initRL u ep ts).1 u ep
      t31).2.failed_attempts u = some [t31] ∧
    (allow_request (allow_request (runAllow initRL u ep ts).1 u ep t31).2
      u ep t32).1 = true := by
  match ts, hlen with
  | t :: rest, hlen =>
  have hrest30 : rest.length = 29 := by simpa using hlen
  have h1 := allow_request_init u ep t
  have h2 := runAllow_mk u ep rest [t] t31
    (by intro x hx
        rcases List.mem_singleton.mp hx with rfl
        exact hwin x (List.mem_cons_self x rest))
    (fun x hx => hwin x (List.mem_cons_of_mem t hx))
    (by simp [hrest30])
  have hfull : runAllow initRL u ep (t :: rest) =
      (mkRL u ep (t :: rest), List.replicate 30 true) := by
    show (let r := allow_request initRL u ep t;
      let rest2 := runAllow r.2 u ep rest; (rest2.1, r.1 :: rest2.2)) = _
    rw [h1]
    dsimp only
    rw [h2]
    simp [hrest30, List.replicate_succ]
  have hmin31 : (t :: rest).filter (fun x => decide (t31 - x < 60)) =
      t :: rest :=
    List.filter_eq_self.mpr fun x hx => decide_eq_true (hwin x hx).1
  have hhour31 : (t :: rest).filter (fun x => decide (t31 - x < 3600)) =
      t :: rest :=
    List.filter_eq_self.mpr fun x hx => decide_eq_true (by linarith [(hwin x hx).1])
  have hreject := allow_request_mk_reject u ep (t :: rest) t31
    (by rw [hmin31, hlen])
  rw [hmin31, hhour31] at hreject
  have hmin32 : (t :: rest).filter (fun x => decide (t32 - x < 60)) = [] := by
    rw [List.filter_eq_nil_iff]
    intro x hx
    simp only [decide_eq_true_eq]
    intro hcon
    linarith [hgap x hx]
  have hallow := allow_request_small_windows u ep (t :: rest) (t :: rest)
    [(u, [t31])] t32 (by rw [hmin32]; decide)
    (lt_of_le_of_lt (le_trans (List.length_filter_le _ _) (le_of_eq hlen))
      (by norm_num))
  refine ⟨by rw [hfull], ?_, ?_, ?_⟩
  · rw [hfull, hreject]
  · rw [hfull, hreject]
    simp [alookup]
  · rw [hfull, hreject]
    exact hallow

/-- C5 witness: 30 requests at time 0, rejection at time 0, and renewed
permission at time 61. -/
theorem c5_minute_window_limit_witness :
    (runAllow initRL 1 "default" (List.replicate 30 0)).2 =
      List.replicate 30 true ∧
    (allow_request (runAllow initRL 1 "default"
      (List.replicate 30 0)).1 1 "default" 0).1 = false ∧
    (allow_request (allow_request (runAllow initRL 1 "default"
      (List.replicate 30 0)).1 1 "default" 0).2 1 "default" 61).1 = true := by
  have h := c5_minute_window_limit 1 "default" (List.replicate 30 0) 0 61
    (by simp)
    (by intro x hx
        rw [List.eq_of_mem_replicate hx]
        norm_num)
    (by intro x hx
        rw [List.eq_of_mem_replicate hx]
        norm_num)
  exact ⟨h.1, h.2.1, h.2.2.2⟩

/-! ## CAPTCHA Engine (`CaptchaGenerator`)

Constants from `SecurityConfig`: `CAPTCHA_EXPIRY_SECONDS = 300`,
`MAX_CAPTCHA_ATTEMPTS = 3`.  The `db_instance` fallback store is `None` in
`generate_captcha` (and in the flows the claims describe), so the MongoDB
branches are not taken and are omitted.  `random.choice` / `random.randint`
draws are explicit fields of `CaptchaRand`. -/

/-- Python `str.upper()` (ASCII-faithful). -/
def pyUpper (s : String) : String := ⟨s.data.map Char.toUpper⟩

/-- Python `str.strip()`: drop leading and trailing whitespace. -/
def pyStrip (s : String) : String :=
  ⟨((s.data.dropWhile Char.isWhitespace).reverse.dropWhile
      Char.isWhitespace).reverse⟩

/-- The normalization `answer.upper().strip()` applied by both
`store_captcha` and `verify_captcha`. -/
def pyNormalize (s : String) : String := pyStrip (pyUpper s)

/-- The random draws made by one call to `CaptchaGenerator.generate`:
the challenge family, the arithmetic operation choice, the two
`random.randint` operands, and the canned sequence/word indices. -/
structure CaptchaRand where
  family : Fin 3
  opIdx : Fin 3
  a : Nat
  b : Nat
  seqIdx : Fin 4
  wordIdx : Fin 4

/-- Model of `CaptchaGenerator._generate_math_captcha`.  The operand
ranges (easy 1–10, medium 5–25, hard 10–50) only constrain the random
draws, not the arithmetic; the draws appear as `r.a`, `r.b`.  The source's
multiplication question contains a mojibake operator byte; it is rendered
here as `*`. -/
def generate_math_captcha (difficulty : String) (r : CaptchaRand) :
    String × String :=
  let op : Char :=
    if difficulty = "easy" then (if r.opIdx.val % 2 = 0 then '+' else '-')
    else if difficulty = "hard" then
      (if r.opIdx.val = 0 then '+' else if r.opIdx.val = 1 then '-' else '*')
    else (if r.opIdx.val % 2 = 0 then '+' else '-')
  if op = '+' then
    ("Berapa " ++ pyStr r.a ++ " + " ++ pyStr r.b ++ "?", pyStr (r.a + r.b))
  else if op = '-' then
    let a := if r.a < r.b then r.b else r.a
    let b := if r.a < r.b then r.a else r.b
    ("Berapa " ++ pyStr a ++ " - " ++ pyStr b ++ "?", pyStr (a - b))
  else
    ("Berapa " ++ pyStr r.a ++ " * " ++ pyStr r.b ++ "?", pyStr (r.a * r.b))

/-- The canned sequence challenges `(seq, answer, question)`. -/
def sequenceCaptchas : List (List Nat × String × String) :=
  [([2, 4, 6, 8], "10", "Lanjutkan: 2, 4, 6, 8, ?"),
   ([1, 3, 5, 7], "9", "Lanjutkan: 1, 3, 5, 7, ?"),
   ([5, 10, 15, 20], "25", "Lanjutkan: 5, 10, 15, 20, ?"),
   ([1, 4, 7, 10], "13", "Lanjutkan: 1, 4, 7, 10, ?")]

/-- Model of `CaptchaGenerator._generate_sequence_captcha`. -/
def generate_sequence_captcha (r : CaptchaRand) : String × String :=
  let e := sequenceCaptchas.getD r.seqIdx.val ([], "", "")
  (e.2.2, e.2.1)

/-- The canned word challenges `(word, question)`. -/
def wordCaptchas : List (String × String) :=
  [("TRADING", "Sebutkan huruf ke-3 dari kata TRADING"),
   ("SOLANA", "Sebutkan huruf terakhir dari kata SOLANA"),
   ("WALLET", "Berapa jumlah huruf dalam kata WALLET?"),
   ("CRYPTO", "Sebutkan huruf pertama dari kata CRYPTO")]

/-- Python substring membership `needle in haystack`. -/
def containsSub (needle : List Char) : List Char → Bool
  | [] => needle.isEmpty
  | c :: rest => needle.isPrefixOf (c :: rest) || containsSub needle rest

/-- Model of `CaptchaGenerator._generate_word_captcha`, including the
substring dispatch on the question text. -/
def generate_word_captcha (r : CaptchaRand) : String × String :=
  let e := wordCaptchas.getD r.wordIdx.val ("", "")
  let word := e.1
  let question := e.2
  let answer : String :=
    if containsSub "huruf ke-3".data question.data then ⟨[word.data.getD 2 ' ']⟩
    else if containsSub "huruf terakhir".data question.data then
      ⟨[word.data.getLastD ' ']⟩
    else if containsSub "jumlah huruf".data question.data then
      pyStr word.data.length
    else ⟨[word.data.getD 0 ' ']⟩
  (question, answer)

/-- Model of `CaptchaGenerator.generate`: dispatch on the randomly chosen
challenge family. -/
def generate (difficulty : String) (r : CaptchaRand) : String × String :=
  if r.family.val = 0 then generate_math_captcha difficulty r
  else if r.family.val = 1 then generate_sequence_captcha r
  else generate_word_captcha r

/-- One entry of `captcha_storage`:
`{'answer': ..., 'expires_at': ..., 'attempts': ...}`. -/
structure CaptchaEntry where
  answer : String
  expires_at : Tm
  attempts : Nat
deriving DecidableEq

abbrev CaptchaState := List (Nat × CaptchaEntry)

/-- Model of `CaptchaGenerator.store_captcha` (in-memory path, no db
instance): store the normalized answer with expiry `now + 300` and a fresh
attempt counter. -/
def store_captcha (st : CaptchaState) (user_id : Nat) (answer : String)
    (now : Tm) : CaptchaState :=
  ainsert st user_id ⟨pyNormalize answer, now + 300, 0⟩

/-- Model of `CaptchaGenerator.verify_captcha` (in-memory path, no db
instance): expiry check, attempt increment with budget 3, then normalized
comparison; the challenge is deleted on expiry, exhaustion, or success. -/
def verify_captcha (st : CaptchaState) (user_id : Nat) (user_answer : String)
    (now : Tm) : Bool × CaptchaState :=
  match alookup st user_id with
  | some cd =>
    if cd.expires_at < now then (false, aerase st user_id)
    else
      let attempts := cd.attempts + 1
      if 3 < attempts then (false, aerase st user_id)
      else if cd.answer = pyNormalize user_answer then (true, aerase st user_id)
      else (false, ainsert st user_id ⟨cd.answer, cd.expires_at, attempts⟩)
  | none => (false, st)

/-- The dict returned by `generate_captcha`: both the question and —
verbatim from the source, flagged there as "For testing only, remove in
production" — the answer. -/
structure CaptchaDict where
  question : String
  answer : String

/-- Model of `CaptchaGenerator.generate_captcha`: generate at default
difficulty `"medium"`, store, and return the question/answer dict. -/
def generate_captcha (st : CaptchaState) (user_id : Nat) (r : CaptchaRand)
    (now : Tm) : Option CaptchaDict × CaptchaState :=
  let qa := generate "medium" r
  (some ⟨qa.1, qa.2⟩, store_captcha st user_id qa.2 now)

theorem verify_captcha_missing (st : CaptchaState) (u : Nat) (w : String)
    (t : Tm) (h : alookup st u = none) : verify_captcha st u w t = (false, st) := by
  unfold verify_captcha
  rw [h]

theorem verify_captcha_wrong (st : CaptchaState) (u : Nat) (w : String)
    (t : Tm) (cd : CaptchaEntry) (hlook : alookup st u = some cd)
    (hexp : ¬ cd.expires_at < t) (hatt : cd.attempts + 1 ≤ 3)
    (hans : cd.answer ≠ pyNormalize w) :
    verify_captcha st u w t =
      (false, ainsert st u ⟨cd.answer, cd.expires_at, cd.attempts + 1⟩) := by
  unfold verify_captcha
  rw [hlook]
  dsimp only
  rw [if_neg hexp, if_neg (by omega), if_neg hans]

theorem verify_captcha_exhaust (st : CaptchaState) (u : Nat) (w : String)
    (t : Tm) (cd : CaptchaEntry) (hlook : alookup st u = some cd)
    (hexp : ¬ cd.expires_at < t) (hatt : 3 < cd.attempts + 1) :
    verify_captcha st u w t = (false, aerase st u) := by
  unfold verify_captcha
  rw [hlook]
  dsimp only
  rw [if_neg hexp, if_pos hatt]

theorem verify_captcha_correct (st : CaptchaState) (u : Nat) (w : String)
    (t : Tm) (cd : CaptchaEntry) (hlook : alookup st u = some cd)
    (hexp : ¬ cd.expires_at < t) (hatt : cd.attempts + 1 ≤ 3)
    (hans : cd.answer = pyNormalize w) :
    verify_captcha st u w t = (true, aerase st u) := by
  unfold verify_captcha
  rw [hlook]
  dsimp only
  rw [if_neg hexp, if_neg (by omega), if_pos hans]

/-- C3: `generate_captcha` does NOT return only the question: for every
principal and random draw, the returned dict also carries the expected
answer (the very string stored for verification), contradicting the
specified interface.  The source itself marks the field "For testing only,
remove in production". -/
theorem c3_generate_captcha_leaks_answer (st : CaptchaState) (u : Nat)
    (r : CaptchaRand) (now : Tm) :
    ∃ d, (generate_captcha st u r now).1 = some d ∧
      d.answer = (generate "medium" r).2 ∧
      alookup (generate_captcha st u r now).2 u =
        some ⟨pyNormalize d.answer, now + 300, 0⟩ :=
  ⟨⟨(generate "medium" r).1, (generate "medium" r).2⟩, rfl, rfl,
    alookup_ainsert_self _ _ _⟩

/-- C6: a live, unexpired challenge verifies true on a candidate equal to
the generated answer up to letter case and surrounding whitespace, the
challenge is deleted by that success, and a second submission of the same
correct answer afterwards returns false. -/
theorem c6_captcha_verify_once (st : CaptchaState) (u : Nat) (a c : String)
    (t0 t1 t2 : Tm) (hnorm : pyNormalize c = pyNormalize a)
    (hexp : t1 ≤ t0 + 300) :
    (verify_captcha (store_captcha st u a t0) u c t1).1 = true ∧
    alookup (verify_captcha (store_captcha st u a t0) u c t1).2 u = none ∧
    (verify_captcha (verify_captcha (store_captcha st u a t0) u c t1).2
      u c t2).1 = false := by
  have h1 : verify_captcha (store_captcha st u a t0) u c t1 =
      (true, aerase (store_captcha st u a t0) u) :=
    verify_captcha_correct _ _ _ _ ⟨pyNormalize a, t0 + 300, 0⟩
      (alookup_ainsert_self _ _ _) (not_lt.mpr hexp)
      (by show 0 + 1 ≤ 3; decide) hnorm.symm
  have h2 : alookup (aerase (store_captcha st u a t0) u) u = none :=
    alookup_aerase_self _ _
  refine ⟨by rw [h1], by rw [h1]; exact h2, ?_⟩
  rw [h1]
  rw [verify_captcha_missing _ _ _ _ h2]

/-- C6 witness: answer `"G"`, candidate `" g "` (lower case, padded with
whitespace), stored at time 0 and verified at times 10 and 20. -/
theorem c6_captcha_verify_once_witness :
    (verify_captcha (store_captcha [] 1 "G" 0) 1 " g " 10).1 = true ∧
    alookup (verify_captcha (store_captcha [] 1 "G" 0) 1 " g " 10).2 1 = none ∧
    (verify_captcha (verify_captcha (store_captcha [] 1 "G" 0) 1 " g " 10).2
      1 " g " 20).1 = false :=
  c6_captcha_verify_once [] 1 "G" " g " 0 10 20 (by decide) (by norm_num)

/-- C7: four consecutive wrong answers against one live challenge each
return false, the 4th attempt deletes the challenge (attempt budget 3
exceeded), and resubmitting the originally-correct answer afterwards also
returns false because no challenge remains. -/
theorem c7_captcha_attempt_exhaustion (st : CaptchaState) (u : Nat)
    (a w1 w2 w3 w4 : String) (t0 t1 t2 t3 t4 t5 : Tm)
    (hw1 : pyNormalize a ≠ pyNormalize w1)
    (hw2 : pyNormalize a ≠ pyNormalize w2)
    (hw3 : pyNormalize a ≠ pyNormalize w3)
    (hw4 : pyNormalize a ≠ pyNormalize w4)
    (he1 : t1 ≤ t0 + 300) (he2 : t2 ≤ t0 + 300) (he3 : t3 ≤ t0 + 300)
    (he4 : t4 ≤ t0 + 300) :
    (verify_captcha (store_captcha st u a t0) u w1 t1).1 = false ∧
    (verify_captcha (verify_captcha (store_captcha st u a t0) u w1 t1).2
      u w2 t2).1 = false ∧
    (verify_captcha (verify_captcha (verify_captcha
      (store_captcha st u a t0) u w1 t1).2 u w2 t2).2 u w3 t3).1 = false ∧
    (verify_captcha (verify_captcha (verify_captcha (verify_captcha
      (store_captcha st u a t0) u w1 t1).2 u w2 t2).2 u w3 t3).2
      u w4 t4).1 = false ∧
    alookup (verify_captcha (verify_captcha (verify_captcha (verify_captcha
      (store_captcha st u a t0) u w1 t1).2 u w2 t2).2 u w3 t3).2
      u w4 t4).2 u = none ∧
    (verify_captcha (verify_captcha (verify_captcha (verify_captcha
      (verify_captcha (store_captcha st u a t0) u w1 t1).2 u w2 t2).2
      u w3 t3).2 u w4 t4).2 u a t5).1 = false := by
  have h1 : verify_captcha (store_captcha st u a t0) u w1 t1 =
      (false, ainsert (store_captcha st u a t0) u
        ⟨pyNormalize a, t0 + 300, 1⟩) :=
    verify_captcha_wrong _ u w1 t1 ⟨pyNormalize a, t0 + 300, 0⟩
      (alookup_ainsert_self _ _ _) (not_lt.mpr he1)
      (by show 0 + 1 ≤ 3; decide) hw1
  have h2 : verify_captcha (ainsert (store_captcha st u a t0) u
        ⟨pyNormalize a, t0 + 300, 1⟩) u w2 t2 =
      (false, ainsert (ainsert (store_captcha st u a t0) u
        ⟨pyNormalize a, t0 + 300, 1⟩) u ⟨pyNormalize a, t0 + 300, 2⟩) :=
    verify_captcha_wrong _ u w2 t2 ⟨pyNormalize a, t0 + 300, 1⟩
      (alookup_ainsert_self _ _ _) (not_lt.mpr he2)
      (by show 1 + 1 ≤ 3; decide) hw2
  have h3 : verify_captcha (ainsert (ainsert (store_captcha st u a t0) u
        ⟨pyNormalize a, t0 + 300, 1⟩) u ⟨pyNormalize a, t0 + 300, 2⟩)
        u w3 t3 =
      (false, ainsert (ainsert (ainsert (store_captcha st u a t0) u
        ⟨pyNormalize a, t0 + 300, 1⟩) u ⟨pyNormalize a, t0 + 300, 2⟩) u
        ⟨pyNormalize a, t0 + 300, 3⟩) :=
    verify_captcha_wrong _ u w3 t3 ⟨pyNormalize a, t0 + 300, 2⟩
      (alookup_ainsert_self _ _ _) (not_lt.mpr he3)
      (by show 2 + 1 ≤ 3; decide) hw3
  have h4 : verify_captcha (ainsert (ainsert (ainsert
        (store_captcha st u a t0) u ⟨pyNormalize a, t0 + 300, 1⟩) u
        ⟨pyNormalize a, t0 + 300, 2⟩) u ⟨pyNormalize a, t0 + 300, 3⟩)
        u w4 t4 =
      (false, aerase (ainsert (ainsert (ainsert (store_captcha st u a t0) u
        ⟨pyNormalize a, t0 + 300, 1⟩) u ⟨pyNormalize a, t0 + 300, 2⟩) u
        ⟨pyNormalize a, t0 + 300, 3⟩) u) :=
    verify_captcha_exhaust _ u w4 t4 ⟨pyNormalize a, t0 + 300, 3⟩
      (alookup_ainsert_self _ _ _) (not_lt.mpr he4)
      (by show 3 < 3 + 1; decide)
  have h5 : alookup (aerase (ainsert (ainsert (ainsert
      (store_captcha st u a t0) u ⟨pyNormalize a, t0 + 300, 1⟩) u
      ⟨pyNormalize a, t0 + 300, 2⟩) u ⟨pyNormalize a, t0 + 300, 3⟩) u) u =
      none := alookup_aerase_self _ _
  simp only [h1, h2, h3, h4]
  exact ⟨trivial, trivial, trivial, trivial, h5,
    by rw [verify_captcha_missing _ _ _ _ h5]⟩

/-- C7 witness: answer `"9"`, wrong guesses `"1"`–`"4"` at times 1–4, and
a final correct resubmission at time 5. -/
theorem c7_captcha_attempt_exhaustion_witness :
    (verify_captcha (verify_captcha (verify_captcha (verify_captcha
      (store_captcha [] 1 "9" 0) 1 "1" 1).2 1 "2" 2).2 1 "3" 3).2
      1 "4" 4).1 = false ∧
    alookup (verify_captcha (verify_captcha (verify_captcha (verify_captcha
      (store_captcha [] 1 "9" 0) 1 "1" 1).2 1 "2" 2).2 1 "3" 3).2
      1 "4" 4).2 1 = none ∧
    (verify_captcha (verify_captcha (verify_captcha (verify_captcha
      (verify_captcha (store_captcha [] 1 "9" 0) 1 "1" 1).2 1 "2" 2).2
      1 "3" 3).2 1 "4" 4).2 1 "9" 5).1 = false := by
  have h := c7_captcha_attempt_exhaustion [] 1 "9" "1" "2" "3" "4"
    0 1 2 3 4 5 (by decide) (by decide) (by decide) (by decide)
    (by norm_num) (by norm_num) (by norm_num) (by norm_num)
  exact ⟨h.2.2.2.1, h.2.2.2.2.1, h.2.2.2.2.2⟩

/-! ## Input Validators (`InputValidator.validate_percentage`)

The source strips the input, removes every `%`, matches it against
`re.match(r'^\d{1,3}(\.\d{1,2})?$', s)`, parses it with `float`, and
finally range-checks `0 <= percent <= 10000`.  `\d` is modelled over the
ASCII digits, and the exact decimal value stands in for the parsed float.
Python's `$` (without `re.MULTILINE`) matches at the end of the string or
just before one newline that ends the string, so the pattern is decided
against the input with one trailing newline removed; a matched string can
therefore carry one trailing newline (e.g. cleaned `"12\n"` coming from
input `"12\n%"`), which `float` strips again when parsing. -/

/-- One session dict. -/
structure SessionData where
  user_id : Nat
  created_at : Tm
  expires_at : Tm
  ip_address : Option String
  user_agent : Option String
  last_activity : Tm
deriving DecidableEq

/-- The two dicts held by a `SessionManager` instance, plus the fresh-token
supply. -/
structure SMState where
  sessions : List (Nat × SessionData)
  user_sessions : List (Nat × List Nat)
  counter : Nat
deriving DecidableEq

/-- Fresh `SessionManager()`. -/
def initSM : SMState := ⟨[], [], 0⟩

/-- Model of `SessionManager.revoke_session`: remove the token from the
sessions dict and from its owner's token list; a no-op for unknown
tokens. -/
def revoke_session (s : SMState) (tok : Nat) : SMState :=
  match alookup s.sessions tok with
  | none => s
  | some sd =>
    let s1 : SMState := ⟨aerase s.sessions tok, s.user_sessions, s.counter⟩
    match alookup s1.user_sessions sd.user_id with
    | none => s1
    | some toks =>
      ⟨s1.sessions,
        ainsert s1.user_sessions sd.user_id
          (toks.filter (fun t => decide (t ≠ tok))), s1.counter⟩

/-- The search loop of `_cleanup_oldest_session`: scan the user's token
list, tracking the token with the strictly smallest `created_at` seen so
far, starting from `oldest_time = datetime.utcnow()` and no candidate. -/
def findOldestAux : List Nat → List (Nat × SessionData) → Option Nat → Tm →
    Option Nat × Tm
  | [], _, best, bt => (best, bt)
  | t :: ts, sess, best, bt =>
    match alookup sess t with
    | some sd =>
      if sd.created_at < bt then findOldestAux ts sess (some t) sd.created_at
      else findOldestAux ts sess best bt
    | none => findOldestAux ts sess best bt

/-- Model of `SessionManager._cleanup_oldest_session`. -/
def cleanup_oldest_session (s : SMState) (u : Nat) (now : Tm) : SMState :=
  match alookup s.user_sessions u with
  | none => s
  | some tokens =>
    if tokens.isEmpty then s
    else
      match (findOldestAux tokens s.sessions none now).1 with
      | some oldest => revoke_session s oldest
      | none => s

/-- Model of `SessionManager.create_session`: evict via
`_cleanup_oldest_session` when the user already holds at least 3 sessions,
then store a fresh-token session with `expires_at = now + 3600` and append
the token to the user's list. -/
def create_session (s : SMState) (u : Nat)
    (addl : Option (Option String × Option String)) (now : Tm) :
    Nat × SMState :=
  let s1 := if 3 ≤ ((alookup s.user_sessions u).getD []).length then
    cleanup_oldest_session s u now else s
  let tok := s1.counter
  let sd : SessionData :=
    ⟨u, now, now + 3600,
      (match addl with | some md => md.1 | none => none),
      (match addl with | some md => md.2 | none => none), now⟩
  let prev := (alookup s1.user_sessions u).getD []
  (tok, ⟨ainsert s1.sessions tok sd,
    ainsert s1.user_sessions u (prev ++ [tok]), s1.counter + 1⟩)

/-- Model of `SessionManager.validate_session`: `none` for unknown tokens;
expired sessions are revoked as a side effect; otherwise `last_activity`
is refreshed and the session returned. -/
def validate_session (s : SMState) (tok : Nat) (now : Tm) :
    Option SessionData × SMState :=
  match alookup s.sessions tok with
  | none => (none, s)
  | some sd =>
    if sd.expires_at < now then (none, revoke_session s tok)
    else
      let sd2 := { sd with last_activity := now }
      (some sd2, ⟨ainsert s.sessions tok sd2, s.user_sessions, s.counter⟩)

/-- Model of `SessionManager.revoke_all_user_sessions`: delete every
listed token from the sessions dict (the source's `if token in
self.sessions` guard is a semantic no-op for deletion), then drop the
user's list. -/
def revoke_all_user_sessions (s : SMState) (u : Nat) : SMState :=
  match alookup s.user_sessions u with
  | none => s
  | some toks =>
    ⟨toks.foldl (fun acc t => aerase acc t) s.sessions,
      aerase s.user_sessions u, s.counter⟩

/-- Model of `SessionManager.cleanup_expired_sessions`: collect the tokens
past expiry, then revoke each. -/
def cleanup_expired_sessions (s : SMState) (now : Tm) : SMState :=
  let expired := (s.sessions.filter
    (fun p => decide (p.2.expires_at < now))).map (fun p => p.1)
  expired.foldl (fun st t => revoke_session st t) s

/-- One call into the session manager. -/
inductive SMOp where
  | create (u : Nat) (addl : Option (Option String × Option String)) (now : Tm)
  | validate (tok : Nat) (now : Tm)
  | revoke (tok : Nat)
  | revokeAll (u : Nat)
  | sweep (now : Tm)

/-- Apply one call, keeping only the resulting state. -/
def applySMOp (s : SMState) : SMOp → SMState
  | SMOp.create u addl now => (create_session s u addl now).2
  | SMOp.validate tok now => (validate_session s tok now).2
  | SMOp.revoke tok => revoke_session s tok
  | SMOp.revokeAll u => revoke_all_user_sessions s u
  | SMOp.sweep now => cleanup_expired_sessions s now

/-- Run a sequence of calls against a fresh `SessionManager()`. -/
def runSM (ops : List SMOp) : SMState := ops.foldl applySMOp initSM

/-- Mutual consistency of the two session maps: every listed token is a
live session of the listing user, and every live session's token appears
exactly once in its user's list. -/
def SMConsistent (s : SMState) : Prop :=
  (∀ u toks, alookup s.user_sessions u = some toks →
    ∀ t ∈ toks, ∃ sd, alookup s.sessions t = some sd ∧ sd.user_id = u) ∧
  (∀ t sd, alookup s.sessions t = some sd →
    ∃ toks, alookup s.user_sessions sd.user_id = some toks ∧
      toks.count t = 1)

/-- Consistency strengthened with the fresh-token-supply invariant: every
live token was drawn from the counter. -/
def SMWF (s : SMState) : Prop :=
  SMConsistent s ∧ ∀ t sd, alookup s.sessions t = some sd → t < s.counter

theorem count_filter_ne (l : List Nat) (a b : Nat) (h : a ≠ b) :
    (l.filter (fun x => decide (x ≠ b))).count a = l.count a := by
  induction l with
  | nil => rfl
  | cons c rest ih =>
    by_cases hc : c = b
    · have hf : decide (c ≠ b) = false := by simp [hc]
      have hca : ¬ c = a := fun hh => h (hh ▸ hc)
      rw [List.filter_cons, hf, if_neg Bool.false_ne_true, ih,
        List.count_cons]
      simp [hca]
    · have hf : decide (c ≠ b) = true := decide_eq_true hc
      rw [List.filter_cons, hf, if_pos rfl, List.count_cons,
        List.count_cons, ih]

theorem SMWF_revoke (s : SMState) (tok : Nat) (h : SMWF s) :
    SMWF (revoke_session s tok) := by
  obtain ⟨⟨h1, h2⟩, h3⟩ := h
  unfold revoke_session
  cases hlook : alookup s.sessions tok with
  | none => exact ⟨⟨h1, h2⟩, h3⟩
  | some sd =>
    obtain ⟨toks, hut, hcount⟩ := h2 tok sd hlook
    dsimp only
    rw [hut]
    dsimp only
    refine ⟨⟨?_, ?_⟩, ?_⟩
    · intro u' toks' hlk t ht
      by_cases hu : sd.user_id = u'
      · subst hu
        rw [alookup_ainsert_self] at hlk
        injection hlk with hlk
        subst hlk
        have hmem := List.mem_filter.mp ht
        have htne : t ≠ tok := by simpa using hmem.2
        obtain ⟨sdt, hst, hstu⟩ := h1 sd.user_id toks hut t hmem.1
        exact ⟨sdt, by rw [alookup_aerase_ne _ _ _ (Ne.symm htne)]; exact hst,
          hstu⟩
      · rw [alookup_ainsert_ne _ _ _ _ hu] at hlk
        obtain ⟨sdt, hst, hstu⟩ := h1 u' toks' hlk t ht
        have htne : tok ≠ t := by
          intro hh
          subst hh
          rw [hlook] at hst
          injection hst with hst
          exact hu (hst ▸ hstu)
        exact ⟨sdt, by rw [alookup_aerase_ne _ _ _ htne]; exact hst, hstu⟩
    · intro t sdt hlk
      have htne : tok ≠ t := by
        intro hh
        subst hh
        rw [alookup_aerase_self] at hlk
        cases hlk
      rw [alookup_aerase_ne _ _ _ htne] at hlk
      obtain ⟨toks', hut', hcnt'⟩ := h2 t sdt hlk
      by_cases hu : sd.user_id = sdt.user_id
      · refine ⟨toks.filter (fun x => decide (x ≠ tok)), ?_, ?_⟩
        · rw [← hu, alookup_ainsert_self]
        · rw [count_filter_ne _ _ _ (Ne.symm htne)]
          rw [← hu] at hut'
          rw [hut] at hut'
          injection hut' with hh
          rw [hh]
          exact hcnt'
      · refine ⟨toks', ?_, hcnt'⟩
        rw [alookup_ainsert_ne _ _ _ _ hu]
        exact hut'
    · intro t sdt hlk
      have htne : tok ≠ t := by
        intro hh
        subst hh
        rw [alookup_aerase_self] at hlk
        cases hlk
      rw [alookup_aerase_ne _ _ _ htne] at hlk
      exact h3 t sdt hlk

theorem revoke_counter (s : SMState) (tok : Nat) :
    (revoke_session s tok).counter = s.counter := by
  unfold revoke_session
  cases alookup s.sessions tok with
  | none => rfl
  | some sd =>
    dsimp only
    cases alookup s.user_sessions sd.user_id with
    | none => rfl
    | some toks => rfl

theorem SMWF_cleanup (s : SMState) (u : Nat) (now : Tm) (h : SMWF s) :
    SMWF (cleanup_oldest_session s u now) := by
  unfold cleanup_oldest_session
  cases alookup s.user_sessions u with
  | none => exact h
  | some tokens =>
    dsimp only
    split
    · exact h
    · split
      · exact SMWF_revoke s _ h
      · exact h

theorem cleanup_counter (s : SMState) (u : Nat) (now : Tm) :
    (cleanup_oldest_session s u now).counter = s.counter := by
  unfold cleanup_oldest_session
  cases alookup s.user_sessions u with
  | none => rfl
  | some tokens =>
    dsimp only
    split
    · rfl
    · split
      · apply revoke_counter
      · rfl

theorem SMWF_create_core (s1 : SMState) (u : Nat) (m1 m2 : Option String)
    (now : Tm) (h : SMWF s1) :
    SMWF ⟨ainsert s1.sessions s1.counter ⟨u, now, now + 3600, m1, m2, now⟩,
      ainsert s1.user_sessions u
        (((alookup s1.user_sessions u).getD []) ++ [s1.counter]),
      s1.counter + 1⟩ := by
  obtain ⟨⟨h1, h2⟩, h3⟩ := h
  have fresh1 : alookup s1.sessions s1.counter = none := by
    cases hl : alookup s1.sessions s1.counter with
    | none => rfl
    | some sd => exact absurd (h3 _ _ hl) (lt_irrefl _)
  have freshmem : ∀ u' toks', alookup s1.user_sessions u' = some toks' →
      s1.counter ∉ toks' := by
    intro u' toks' hlk hmem
    obtain ⟨sd, hl, _⟩ := h1 u' toks' hlk _ hmem
    rw [fresh1] at hl
    cases hl
  refine ⟨⟨?_, ?_⟩, ?_⟩
  · intro u' toks' hlk t ht
    by_cases hu : u = u'
    · subst hu
      rw [alookup_ainsert_self] at hlk
      injection hlk with hlk
      subst hlk
      rcases List.mem_append.mp ht with hmem | hmem
      · cases hpl : alookup s1.user_sessions u with
        | none =>
          rw [hpl] at hmem
          simp at hmem
        | some pl =>
          rw [hpl] at hmem
          simp only [Option.getD_some] at hmem
          obtain ⟨sdt, hst, hstu⟩ := h1 u pl hpl t hmem
          have htne : s1.counter ≠ t := by
            intro hh
            rw [← hh] at hst
            rw [fresh1] at hst
            cases hst
          exact ⟨sdt, by rw [alookup_ainsert_ne _ _ _ _ htne]; exact hst, hstu⟩
      · rcases List.mem_singleton.mp hmem with rfl
        exact ⟨⟨u, now, now + 3600, m1, m2, now⟩,
          by rw [alookup_ainsert_self], rfl⟩
    · rw [alookup_ainsert_ne _ _ _ _ hu] at hlk
      obtain ⟨sdt, hst, hstu⟩ := h1 u' toks' hlk t ht
      have htne : s1.counter ≠ t := by
        intro hh
        rw [← hh] at hst
        rw [fresh1] at hst
        cases hst
      exact ⟨sdt, by rw [alookup_ainsert_ne _ _ _ _ htne]; exact hst, hstu⟩
  · intro t sdt hlk
    by_cases ht : s1.counter = t
    · subst ht
      rw [alookup_ainsert_self] at hlk
      injection hlk with hlk
      subst hlk
      dsimp only
      refine ⟨((alookup s1.user_sessions u).getD []) ++ [s1.counter], ?_, ?_⟩
      · rw [alookup_ainsert_self]
      · rw [List.count_append]
        have hnot : ((alookup s1.user_sessions u).getD []).count s1.counter
            = 0 := by
          cases hpl : alookup s1.user_sessions u with
          | none => simp
          | some pl =>
            simp only [Option.getD_some]
            exact List.count_eq_zero.mpr (freshmem u pl hpl)
        rw [hnot]
        simp
    · rw [alookup_ainsert_ne _ _ _ _ ht] at hlk
      obtain ⟨toks', hut', hcnt'⟩ := h2 t sdt hlk
      by_cases hu : u = sdt.user_id
      · have hut2 : alookup s1.user_sessions u = some toks' := by
          rw [hu]; exact hut'
        refine ⟨toks' ++ [s1.counter], ?_, ?_⟩
        · rw [← hu, alookup_ainsert_self, hut2]
          rfl
        · rw [List.count_append, hcnt']
          have hc0 : List.count t [s1.counter] = 0 :=
            List.count_eq_zero.mpr
              (by intro hm; exact ht (List.mem_singleton.mp hm).symm)
          rw [hc0]
      · refine ⟨toks', ?_, hcnt'⟩
        rw [alookup_ainsert_ne _ _ _ _ hu]
        exact hut'
  · intro t sdt hlk
    by_cases ht : s1.counter = t
    · rw [← ht]
      exact Nat.lt_succ_self _
    · rw [alookup_ainsert_ne _ _ _ _ ht] at hlk
      exact Nat.lt_succ_of_lt (h3 t sdt hlk)

theorem SMWF_create (s : SMState) (u : Nat)
    (addl : Option (Option String × Option String)) (now : Tm) (h : SMWF s) :
    SMWF (create_session s u addl now).2 := by
  unfold create_session
  dsimp only
  have hs1 : SMWF (if 3 ≤ ((alookup s.user_sessions u).getD []).length then
      cleanup_oldest_session s u now else s) := by
    split
    · exact SMWF_cleanup s u now h
    · exact h
  exact SMWF_create_core _ u _ _ now hs1

theorem SMWF_validate (s : SMState) (tok : Nat) (now : Tm) (h : SMWF s) :
    SMWF (validate_session s tok now).2 := by
  obtain ⟨⟨h1, h2⟩, h3⟩ := h
  unfold validate_session
  cases hlook : alookup s.sessions tok with
  | none => exact ⟨⟨h1, h2⟩, h3⟩
  | some sd =>
    dsimp only
    split
    · exact SMWF_revoke s tok ⟨⟨h1, h2⟩, h3⟩
    · dsimp only
      refine ⟨⟨?_, ?_⟩, ?_⟩
      · intro u' toks' hlk t ht
        obtain ⟨sdt, hst, hstu⟩ := h1 u' toks' hlk t ht
        by_cases htk : tok = t
        · subst htk
          rw [hlook] at hst
          injection hst with hst
          refine ⟨{ sd with last_activity := now }, by rw [alookup_ainsert_self], ?_⟩
          show sd.user_id = u'
          rw [hst]
          exact hstu
        · exact ⟨sdt, by rw [alookup_ainsert_ne _ _ _ _ htk]; exact hst, hstu⟩
      · intro t sdt hlk
        by_cases htk : tok = t
        · subst htk
          rw [alookup_ainsert_self] at hlk
          injection hlk with hlk
          subst hlk
          obtain ⟨toks', hut', hcnt'⟩ := h2 tok sd hlook
          exact ⟨toks', hut', hcnt'⟩
        · rw [alookup_ainsert_ne _ _ _ _ htk] at hlk
          exact h2 t sdt hlk
      · intro t sdt hlk
        by_cases htk : tok = t
        · subst htk
          exact h3 tok sd hlook
        · rw [alookup_ainsert_ne _ _ _ _ htk] at hlk
          exact h3 t sdt hlk

theorem alookup_foldl_aerase (toks : List Nat)
    (sess : List (Nat × SessionData)) (t : Nat) :
    alookup (toks.foldl (fun acc x => aerase acc x) sess) t =
      if t ∈ toks then none else alookup sess t := by
  induction toks generalizing sess with
  | nil => simp
  | cons x xs ih =>
    rw [List.foldl_cons, ih]
    by_cases hxt : x = t
    · subst hxt
      simp [List.mem_cons, alookup_aerase_self]
    · have htx : t ≠ x := fun hh => hxt hh.symm
      rw [alookup_aerase_ne _ _ _ hxt]
      simp [List.mem_cons, htx]

theorem SMWF_revokeAll (s : SMState) (u : Nat) (h : SMWF s) :
    SMWF (revoke_all_user_sessions s u) := by
  obtain ⟨⟨h1, h2⟩, h3⟩ := h
  unfold revoke_all_user_sessions
  cases hlk : alookup s.user_sessions u with
  | none => exact ⟨⟨h1, h2⟩, h3⟩
  | some toks =>
    dsimp only
    refine ⟨⟨?_, ?_⟩, ?_⟩
    · intro u' toks' hlk' t ht
      have hune : u ≠ u' := by
        intro hh
        subst hh
        rw [alookup_aerase_self] at hlk'
        cases hlk'
      rw [alookup_aerase_ne _ _ _ hune] at hlk'
      obtain ⟨sdt, hst, hstu⟩ := h1 u' toks' hlk' t ht
      have htn : t ∉ toks := by
        intro hmem
        obtain ⟨sd2, hst2, hstu2⟩ := h1 u toks hlk t hmem
        rw [hst] at hst2
        injection hst2 with hst2
        exact hune (by rw [← hstu2, ← hst2, hstu])
      refine ⟨sdt, ?_, hstu⟩
      rw [alookup_foldl_aerase, if_neg htn]
      exact hst
    · intro t sdt hlk'
      rw [alookup_foldl_aerase] at hlk'
      by_cases htn : t ∈ toks
      · rw [if_pos htn] at hlk'
        cases hlk'
      · rw [if_neg htn] at hlk'
        obtain ⟨toks', hut', hcnt'⟩ := h2 t sdt hlk'
        have hune : u ≠ sdt.user_id := by
          intro hh
          rw [← hh] at hut'
          rw [hlk] at hut'
          injection hut' with hh2
          apply htn
          have : 0 < toks.count t := by
            rw [hh2, hcnt']
            exact one_pos
          exact List.count_pos_iff.mp this
        refine ⟨toks', ?_, hcnt'⟩
        rw [alookup_aerase_ne _ _ _ hune]
        exact hut'
    · intro t sdt hlk'
      rw [alookup_foldl_aerase] at hlk'
      by_cases htn : t ∈ toks
      · rw [if_pos htn] at hlk'
        cases hlk'
      · rw [if_neg htn] at hlk'
        exact h3 t sdt hlk'

theorem SMWF_foldl_revoke (l : List Nat) :
    ∀ s : SMState, SMWF s →
      SMWF (l.foldl (fun st t => revoke_session st t) s) := by
  induction l with
  | nil => intro s h; exact h
  | cons x xs ih =>
    intro s h
    rw [List.foldl_cons]
    exact ih _ (SMWF_revoke s x h)

theorem SMWF_sweep (s : SMState) (now : Tm) (h : SMWF s) :
    SMWF (cleanup_expired_sessions s now) := by
  unfold cleanup_expired_sessions
  exact SMWF_foldl_revoke _ s h

theorem SMWF_init : SMWF initSM := by
  refine ⟨⟨?_, ?_⟩, ?_⟩
  · intro u toks hlk
    simp [initSM, alookup] at hlk
  · intro t sd hlk
    simp [initSM, alookup] at hlk
  · intro t sd hlk
    simp [initSM, alookup] at hlk

theorem SMWF_apply (s : SMState) (op : SMOp) (h : SMWF s) :
    SMWF (applySMOp s op) := by
  cases op with
  | create u addl now => exact SMWF_create s u addl now h
  | validate tok now => exact SMWF_validate s tok now h
  | revoke tok => exact SMWF_revoke s tok h
  | revokeAll u => exact SMWF_revokeAll s u h
  | sweep now => exact SMWF_sweep s now h

theorem SMWF_foldl_ops (ops : List SMOp) :
    ∀ s : SMState, SMWF s → SMWF (ops.foldl applySMOp s) := by
  induction ops with
  | nil => intro s h; exact h
  | cons op ops ih =>
    intro s h
    rw [List.foldl_cons]
    exact ih _ (SMWF_apply s op h)

/-- C10: after any sequence of create/validate/revoke/revoke-all/sweep
calls against a fresh session manager, the two session maps stay mutually
consistent: every token listed under a user maps to a live session of that
user, and every live session's token appears exactly once in its own
user's token list. -/
theorem c10_session_maps_consistent (ops : List SMOp) :
    SMConsistent (runSM ops) :=
  (SMWF_foldl_ops ops initSM SMWF_init).1

theorem findOldest_three (sess : List (Nat × SessionData)) (a b c : Nat)
    (sa sb sc : SessionData) (now : Tm)
    (hsa : alookup sess a = some sa) (hsb : alookup sess b = some sb)
    (hsc : alookup sess c = some sc) (ha : sa.created_at < now) :
    ∃ e se, (findOldestAux [a, b, c] sess none now).1 = some e ∧
      (e = a ∧ se = sa ∨ e = b ∧ se = sb ∨ e = c ∧ se = sc) ∧
      alookup sess e = some se ∧
      se.created_at ≤ sa.created_at ∧ se.created_at ≤ sb.created_at ∧
      se.created_at ≤ sc.created_at := by
  simp only [findOldestAux, hsa, hsb, hsc]
  rw [if_pos ha]
  by_cases h1 : sb.created_at < sa.created_at
  · rw [if_pos h1]
    by_cases h2 : sc.created_at < sb.created_at
    · rw [if_pos h2]
      exact ⟨c, sc, rfl, Or.inr (Or.inr ⟨rfl, rfl⟩), hsc, by linarith,
        le_of_lt h2, le_refl _⟩
    · rw [if_neg h2]
      exact ⟨b, sb, rfl, Or.inr (Or.inl ⟨rfl, rfl⟩), hsb, le_of_lt h1,
        le_refl _, not_lt.mp h2⟩
  · rw [if_neg h1]
    by_cases h2 : sc.created_at < sa.created_at
    · rw [if_pos h2]
      exact ⟨c, sc, rfl, Or.inr (Or.inr ⟨rfl, rfl⟩), hsc, le_of_lt h2,
        by linarith [not_lt.mp h1], le_refl _⟩
    · rw [if_neg h2]
      exact ⟨a, sa, rfl, Or.inl ⟨rfl, rfl⟩, hsa, le_refl _, not_lt.mp h1,
        not_lt.mp h2⟩

theorem count_one_head (a b c : Nat) (h : List.count a [a, b, c] = 1) :
    b ≠ a ∧ c ≠ a := by
  constructor <;> intro hh <;> subst hh <;>
    simp [List.count_cons] at h

theorem count_one_mid (a b c : Nat) (h : List.count b [a, b, c] = 1) :
    a ≠ b ∧ c ≠ b := by
  constructor <;> intro hh <;> subst hh <;>
    simp [List.count_cons] at h <;> split_ifs at h <;> omega

theorem count_one_last (a b c : Nat) (h : List.count c [a, b, c] = 1) :
    a ≠ c ∧ b ≠ c := by
  constructor <;> intro hh <;> subst hh <;>
    simp [List.count_cons] at h <;> split_ifs at h <;> omega

/-- C8 amended: if the principal's three live sessions were all created
strictly before the current time, creating a 4th session first evicts a
session with the earliest `created_at` among them, the principal ends up
holding exactly 3 sessions, and validating the evicted token afterwards
returns none. -/
theorem c8_amended_oldest_eviction (s : SMState) (u : Nat)
    (addl : Option (Option String × Option String)) (now : Tm)
    (a b c : Nat) (sa sb sc : SessionData) (hwf : SMWF s)
    (hus : alookup s.user_sessions u = some [a, b, c])
    (hsa : alookup s.sessions a = some sa)
    (hsb : alookup s.sessions b = some sb)
    (hsc : alookup s.sessions c = some sc)
    (hca : sa.created_at < now) (hcb : sb.created_at < now)
    (hcc : sc.created_at < now) :
    ∃ e se, alookup s.sessions e = some se ∧ e ∈ [a, b, c] ∧
      se.created_at ≤ sa.created_at ∧ se.created_at ≤ sb.created_at ∧
      se.created_at ≤ sc.created_at ∧
      alookup ((create_session s u addl now).2).sessions e = none ∧
      (∀ t2, (validate_session ((create_session s u addl now).2) e t2).1 =
        none) ∧
      ((alookup ((create_session s u addl now).2).user_sessions u).getD
        []).length = 3 := by
  obtain ⟨⟨h1, h2⟩, h3⟩ := hwf
  have huaux : ∀ x sx, x ∈ [a, b, c] → alookup s.sessions x = some sx →
      sx.user_id = u := by
    intro x sx hx hlx
    obtain ⟨sd, hl, hu⟩ := h1 u [a, b, c] hus x hx
    rw [hlx] at hl
    injection hl with hl
    rw [hl]
    exact hu
  have hua : sa.user_id = u := huaux a sa (by simp) hsa
  have hub : sb.user_id = u := huaux b sb (by simp) hsb
  have huc : sc.user_id = u := huaux c sc (by simp) hsc
  have hcount : ∀ x sx, alookup s.sessions x = some sx → sx.user_id = u →
      List.count x [a, b, c] = 1 := by
    intro x sx hlx hux
    obtain ⟨toks, htl, hc1⟩ := h2 x sx hlx
    rw [hux, hus] at htl
    injection htl with htl
    rw [← htl] at hc1
    exact hc1
  obtain ⟨hba, hcaa⟩ := count_one_head a b c (hcount a sa hsa hua)
  obtain ⟨hab2, hcb2⟩ := count_one_mid a b c (hcount b sb hsb hub)
  obtain ⟨hac2, hbc2⟩ := count_one_last a b c (hcount c sc hsc huc)
  have hfa : s.counter ≠ a := fun hh => lt_irrefl _ (hh ▸ h3 a sa hsa)
  have hfb : s.counter ≠ b := fun hh => lt_irrefl _ (hh ▸ h3 b sb hsb)
  have hfc : s.counter ≠ c := fun hh => lt_irrefl _ (hh ▸ h3 c sc hsc)
  obtain ⟨e, se, hfind, hcases, hse, hlea, hleb, hlec⟩ :=
    findOldest_three s.sessions a b c sa sb sc now hsa hsb hsc hca
  have hseu : se.user_id = u := by
    rcases hcases with ⟨rfl, rfl⟩ | ⟨rfl, rfl⟩ | ⟨rfl, rfl⟩
    · exact hua
    · exact hub
    · exact huc
  have hfe : s.counter ≠ e := by
    rcases hcases with ⟨rfl, rfl⟩ | ⟨rfl, rfl⟩ | ⟨rfl, rfl⟩
    · exact hfa
    · exact hfb
    · exact hfc
  have hmem : e ∈ [a, b, c] := by
    rcases hcases with ⟨rfl, rfl⟩ | ⟨rfl, rfl⟩ | ⟨rfl, rfl⟩ <;> simp
  have hflen : (([a, b, c] : List Nat).filter
      (fun t => decide (t ≠ e))).length = 2 := by
    rcases hcases with ⟨rfl, rfl⟩ | ⟨rfl, rfl⟩ | ⟨rfl, rfl⟩
    · simp [List.filter_cons, hba, hcaa]
    · simp [List.filter_cons, hab2, hcb2]
    · simp [List.filter_cons, hac2, hbc2]
  have hrev : revoke_session s e = ⟨aerase s.sessions e,
      ainsert s.user_sessions u
        (([a, b, c] : List Nat).filter (fun t => decide (t ≠ e))),
      s.counter⟩ := by
    unfold revoke_session
    rw [hse]
    dsimp only
    rw [hseu, hus]
  have hclean : cleanup_oldest_session s u now = revoke_session s e := by
    unfold cleanup_oldest_session
    rw [hus]
    dsimp only
    rw [show (([a, b, c] : List Nat).isEmpty) = false from rfl]
    simp only [Bool.false_eq_true, if_false]
    rw [hfind]
  have hlen3 : 3 ≤ ((alookup s.user_sessions u).getD []).length := by
    rw [hus]
    exact le_refl 3
  have hcreate : (create_session s u addl now).2 =
      ⟨ainsert (aerase s.sessions e) s.counter
        ⟨u, now, now + 3600,
          (match addl with | some md => md.1 | none => none),
          (match addl with | some md => md.2 | none => none), now⟩,
        ainsert (ainsert s.user_sessions u
          (([a, b, c] : List Nat).filter (fun t => decide (t ≠ e)))) u
          ((([a, b, c] : List Nat).filter (fun t => decide (t ≠ e))) ++
            [s.counter]),
        s.counter + 1⟩ := by
    unfold create_session
    dsimp only
    rw [if_pos hlen3, hclean, hrev]
    dsimp only
    rw [alookup_ainsert_self]
    rfl
  have hnone : alookup ((create_session s u addl now).2).sessions e = none := by
    rw [hcreate]
    dsimp only
    rw [alookup_ainsert_ne _ _ _ _ hfe]
    exact alookup_aerase_self _ _
  refine ⟨e, se, hse, hmem, hlea, hleb, hlec, hnone, ?_, ?_⟩
  · intro t2
    unfold validate_session
    rw [hnone]
  · rw [hcreate]
    dsimp only
    rw [alookup_ainsert_self]
    simp only [Option.getD_some, List.length_append, hflen]
    rfl

/-- The session record created for user 1 at time 0. -/
def c8SessionAtZero : SessionData := ⟨1, 0, 0 + 3600, none, none, 0⟩

/-- The state after three `create_session` calls for user 1, all at
time 0 (three sessions sharing one `created_at`, as happens when the
creations fall within one `datetime.utcnow()` tick). -/
def c8ThreeSessions : SMState :=
  ⟨[(2, c8SessionAtZero), (1, c8SessionAtZero), (0, c8SessionAtZero)],
    [(1, [0, 1, 2])], 3⟩

/-- C8 counterexample: user 1 already holds 3 live sessions (created at
time 0, a state reached by three create calls); a 4th create at the same
time 0 evicts nothing — the oldest-session search starts from
`oldest_time = utcnow()` with a strict comparison, so sessions whose
`created_at` equals the current time are never selected.  The user ends up
holding 4 sessions, and even the oldest token still validates. -/
theorem c8_counterexample_equal_timestamps :
    (create_session ((create_session ((create_session initSM 1 none 0).2) 1
      none 0).2) 1 none 0).2 = c8ThreeSessions ∧
    ((alookup c8ThreeSessions.user_sessions 1).getD []).length = 3 ∧
    ((alookup ((create_session c8ThreeSessions 1 none 0).2).user_sessions
      1).getD []).length = 4 ∧
    ((validate_session ((create_session c8ThreeSessions 1 none 0).2) 0
      0).1).isSome = true := by
  have h4 : create_session c8ThreeSessions 1 none 0 =
      (3, ⟨[(3, c8SessionAtZero), (2, c8SessionAtZero), (1, c8SessionAtZero),
        (0, c8SessionAtZero)], [(1, [0, 1, 2, 3])], 4⟩) := by
    norm_num [create_session, cleanup_oldest_session, findOldestAux,
      revoke_session, c8ThreeSessions, c8SessionAtZero, alookup, ainsert,
      aerase, List.filter, List.isEmpty]
  refine ⟨rfl, rfl, ?_, ?_⟩
  · rw [h4]
    rfl
  · rw [h4]
    norm_num [validate_session, alookup, c8SessionAtZero]

/-- Three create calls for user 1 at times 10, 5 and 7. -/
def c8WitnessOps : List SMOp :=
  [SMOp.create 1 none 10, SMOp.create 1 none 5, SMOp.create 1 none 7]

/-- C8 amended witness: user 1 holds sessions created at 10, 5 and 7; a
4th create at time 20 evicts the session created at 5. -/
theorem c8_amended_oldest_eviction_witness :
    ∃ e se, alookup (runSM c8WitnessOps).sessions e = some se ∧
      e ∈ [0, 1, 2] ∧
      se.created_at ≤
        (⟨1, 10, 10 + 3600, none, none, 10⟩ : SessionData).created_at ∧
      se.created_at ≤
        (⟨1, 5, 5 + 3600, none, none, 5⟩ : SessionData).created_at ∧
      se.created_at ≤
        (⟨1, 7, 7 + 3600, none, none, 7⟩ : SessionData).created_at ∧
      alookup ((create_session (runSM c8WitnessOps) 1 none 20).2).sessions
        e = none ∧
      (∀ t2, (validate_session
        ((create_session (runSM c8WitnessOps) 1 none 20).2) e t2).1 =
        none) ∧
      ((alookup ((create_session (runSM c8WitnessOps) 1 none
        20).2).user_sessions 1).getD []).length = 3 :=
  c8_amended_oldest_eviction (runSM c8WitnessOps) 1 none 20 0 1 2
    ⟨1, 10, 10 + 3600, none, none, 10⟩ ⟨1, 5, 5 + 3600, none, none, 5⟩
    ⟨1, 7, 7 + 3600, none, none, 7⟩
    (SMWF_foldl_ops c8WitnessOps initSM SMWF_init) rfl rfl rfl rfl
    (by show (10 : ℚ) < 20; norm_num) (by show (5 : ℚ) < 20; norm_num)
    (by show (7 : ℚ) < 20; norm_num)
